import Mathlib

/-!
Verification of the callback module of the Telegram-Leads-AI repository
(agent/telegram-assistant/shared_libraries/callbacks.py) against its
natural-language specification.

The Python module is shallowly embedded: Python values that flow through the
callbacks are modelled by the inductive type PyVal, session state and tool
argument mappings by association lists with string keys (the only key type the
module ever uses), fallible Python code by Except over a small exception type,
and the standard library pieces the module relies on (json.loads, str.lower,
dict.get, truthiness, ==, <=) by executable Lean functions that follow the
CPython semantics on the value shapes the module can actually see.  Machine
floats are modelled by rationals; time.time() is an explicit parameter.
-/

/-- Model of the Python values handled by the callback module: None, bool,
int, float (modelled as a rational), str, list, set, tuple and dict with
string keys (the module only ever builds or reads string-keyed mappings). -/
inductive PyVal where
  | none : PyVal
  | bool (b : Bool) : PyVal
  | int (n : Int) : PyVal
  | float (q : ℚ) : PyVal
  | str (s : String) : PyVal
  | list (xs : List PyVal) : PyVal
  | set (xs : List PyVal) : PyVal
  | tuple (xs : List PyVal) : PyVal
  | dict (kvs : List (String × PyVal)) : PyVal

/-- Lookup returning an option: d[k] when the key is present.  The embedding
keeps keys unique (dictSet replaces), so first match and last match
coincide. -/
def dictGet {α : Type} : List (String × α) → String → Option α
  | [], _ => Option.none
  | kv :: rest, k => if kv.1 == k then Option.some kv.2 else dictGet rest k

/-- Lookup with a default: d.get(k, default). -/
def dictGetD {α : Type} (kvs : List (String × α)) (k : String) (d : α) : α :=
  match dictGet kvs k with
  | Option.some v => v
  | Option.none => d

/-- Python membership test: k in d. -/
def hasKey {α : Type} : List (String × α) → String → Bool
  | [], _ => false
  | kv :: rest, k => kv.1 == k || hasKey rest k

/-- Python dict assignment d[k] = v: replaces the value in place when the key
exists (keeping its position), appends otherwise. -/
def dictSet {α : Type} : List (String × α) → String → α → List (String × α)
  | [], k, v => [(k, v)]
  | kv :: rest, k, v =>
    if kv.1 == k then (k, v) :: rest else kv :: dictSet rest k v

/-- ASCII lowercasing of one character, models what str.lower does on the
ASCII inputs the module handles (the embedding does not model Unicode case
folding). -/
def chLower (c : Char) : Char :=
  if 65 ≤ c.toNat ∧ c.toNat ≤ 90 then Char.ofNat (c.toNat + 32) else c

/-- Model of Python str.lower on ASCII strings. -/
def strLower (s : String) : String :=
  String.mk (s.data.map chLower)

mutual
/-- Embeds lowercase_value (callbacks.py lines 112-122): dicts are rebuilt
with unchanged keys and recursively processed values, strings are lowercased,
list/set/tuple are rebuilt with their own constructor around recursively
processed elements, and every other value is returned unchanged.  The
function is pure: it always builds new containers and never mutates its
argument. -/
def lowercase_value : PyVal → PyVal
  | .dict kvs => .dict (lowercase_kvs kvs)
  | .str s => .str (strLower s)
  | .list xs => .list (lowercase_list xs)
  | .set xs => .set (lowercase_list xs)
  | .tuple xs => .tuple (lowercase_list xs)
  | v => v

/-- Elementwise recursion of lowercase_value over container elements. -/
def lowercase_list : List PyVal → List PyVal
  | [] => []
  | x :: xs => lowercase_value x :: lowercase_list xs

/-- Entrywise recursion of lowercase_value over dict items: keys are kept,
values are processed. -/
def lowercase_kvs : List (String × PyVal) → List (String × PyVal)
  | [] => []
  | kv :: rest => (kv.1, lowercase_value kv.2) :: lowercase_kvs rest
end

/-- Python exceptions that can escape the embedded fragments: TypeError (for
example json.loads on a non-string, or ordering a non-number against an int),
AttributeError (calling .get on a value without that method) and KeyError
(indexing a dict with a missing key).  json.JSONDecodeError is handled
separately because validate_customer_id catches it. -/
inductive PyExc where
  | typeError : PyExc
  | attributeError : PyExc
  | keyError : PyExc
deriving DecidableEq

/-- Python identity test x is None. -/
def isNone : PyVal → Bool
  | .none => true
  | _ => false

/-- Python identity test x is True (only the True singleton qualifies). -/
def isTrue : PyVal → Bool
  | .bool b => b
  | _ => false

/-- Python truthiness: None, False, 0, 0.0, empty string and empty containers
are falsy, everything else is truthy. -/
def py_truthy : PyVal → Bool
  | .none => false
  | .bool b => b
  | .int n => n != 0
  | .float q => q != 0
  | .str s => s != ""
  | .list xs => !xs.isEmpty
  | .set xs => !xs.isEmpty
  | .tuple xs => !xs.isEmpty
  | .dict kvs => !kvs.isEmpty

/-- Numeric view of a Python value: bool, int and float form one numeric
tower for == and <=. -/
def pyNum? : PyVal → Option ℚ
  | .bool b => Option.some (if b then 1 else 0)
  | .int n => Option.some (n : ℚ)
  | .float q => Option.some q
  | _ => Option.none

mutual
/-- Python == on the embedded values: numbers compare across bool/int/float,
strings as strings, containers of the same kind pointwise, everything else is
unequal.  Set equality is modelled pointwise in element order (the module
never compares sets). -/
def pyEq : PyVal → PyVal → Bool
  | .none, .none => true
  | .str a, .str b => a == b
  | .list a, .list b => pyEqList a b
  | .tuple a, .tuple b => pyEqList a b
  | .set a, .set b => pyEqList a b
  | .dict a, .dict b => pyEqKVs a b
  | a, b =>
    match pyNum? a, pyNum? b with
    | Option.some x, Option.some y => x == y
    | _, _ => false

/-- Pointwise Python == on lists. -/
def pyEqList : List PyVal → List PyVal → Bool
  | [], [] => true
  | x :: xs, y :: ys => pyEq x y && pyEqList xs ys
  | _, _ => false

/-- Pointwise Python == on string-keyed dict entries. -/
def pyEqKVs : List (String × PyVal) → List (String × PyVal) → Bool
  | [], [] => true
  | a :: xs, b :: ys => a.1 == b.1 && pyEq a.2 b.2 && pyEqKVs xs ys
  | _, _ => false
end

/-- Python <= between a value and an int literal, as in amount <= 10:
defined for numbers, a TypeError for every other left operand. -/
def pyLeInt (v : PyVal) (m : Int) : Except PyExc Bool :=
  match pyNum? v with
  | Option.some x => Except.ok (decide (x ≤ (m : ℚ)))
  | Option.none => Except.error PyExc.typeError

/-- Decimal rendering of a float (best effort: floats reached by the module
come from JSON literals, whose rationals have a power-of-ten denominator). -/
def floatStr (q : ℚ) : String :=
  if q.den == 1 then toString q.num ++ ".0"
  else
    match (List.range 40).find? (fun k => (q * (10 : ℚ) ^ k).den == 1) with
    | Option.some k =>
      let m := (q * (10 : ℚ) ^ k).num
      let sign := if m < 0 then "-" else ""
      let ds := toString m.natAbs
      let ds :=
        if ds.length < k + 1 then
          String.mk (List.replicate (k + 1 - ds.length) '0') ++ ds
        else ds
      sign ++ ds.take (ds.length - k) ++ "." ++ ds.drop (ds.length - k)
    | Option.none => toString q.num ++ "/" ++ toString q.den

mutual
/-- Python repr of the embedded values (single-quoted strings, brackets for
containers), used for elements of containers inside str()/f-strings. -/
def pyRepr : PyVal → String
  | .none => "None"
  | .bool b => if b then "True" else "False"
  | .int n => toString n
  | .float q => floatStr q
  | .str s => "'" ++ s ++ "'"
  | .list xs => "[" ++ pyReprList xs ++ "]"
  | .tuple [x] => "(" ++ pyRepr x ++ ",)"
  | .tuple xs => "(" ++ pyReprList xs ++ ")"
  | .set [] => "set()"
  | .set xs => "\x7b" ++ pyReprList xs ++ "\x7d"
  | .dict kvs => "\x7b" ++ pyReprKVs kvs ++ "\x7d"

/-- Comma-separated repr of container elements. -/
def pyReprList : List PyVal → String
  | [] => ""
  | [x] => pyRepr x
  | x :: xs => pyRepr x ++ ", " ++ pyReprList xs

/-- Comma-separated repr of dict entries. -/
def pyReprKVs : List (String × PyVal) → String
  | [] => ""
  | [kv] => "'" ++ kv.1 ++ "': " ++ pyRepr kv.2
  | kv :: rest => "'" ++ kv.1 ++ "': " ++ pyRepr kv.2 ++ ", " ++ pyReprKVs rest
end

/-- Python str(), as used by f-string interpolation: a string interpolates as
itself, everything else as its repr. -/
def pyStr : PyVal → String
  | .str s => s
  | v => pyRepr v

/-- Opening brace character, named so it can be compared against without a
brace literal. -/
def lbrace : Char := Char.ofNat 123

/-- Closing brace character. -/
def rbrace : Char := Char.ofNat 125

/-- JSON insignificant whitespace skipping. -/
def skipWs : List Char → List Char
  | c :: cs =>
    if c = ' ' ∨ c = '\t' ∨ c = '\n' ∨ c = '\r' then skipWs cs else c :: cs
  | [] => []

/-- Longest leading run of decimal digits, and the remainder. -/
def takeDigits : List Char → List Char × List Char
  | [] => ([], [])
  | c :: cs =>
    if c.isDigit then
      let p := takeDigits cs
      (c :: p.1, p.2)
    else ([], c :: cs)

/-- Value of a digit run, most significant first. -/
def digitsVal : List Char → Nat → Nat
  | [], acc => acc
  | c :: cs, acc => digitsVal cs (acc * 10 + (c.toNat - 48))

/-- Body of a JSON string literal after the opening quote: plain characters
and the single-character escapes; \uXXXX escapes are outside the model. -/
def parseStringBody : List Char → List Char → Option (String × List Char)
  | acc, '"' :: rest => Option.some (String.mk acc.reverse, rest)
  | acc, '\\' :: c :: rest =>
    if c = '"' then parseStringBody ('"' :: acc) rest
    else if c = '\\' then parseStringBody ('\\' :: acc) rest
    else if c = '/' then parseStringBody ('/' :: acc) rest
    else if c = 'n' then parseStringBody ('\n' :: acc) rest
    else if c = 't' then parseStringBody ('\t' :: acc) rest
    else if c = 'r' then parseStringBody ('\r' :: acc) rest
    else if c = 'b' then parseStringBody (Char.ofNat 8 :: acc) rest
    else if c = 'f' then parseStringBody (Char.ofNat 12 :: acc) rest
    else Option.none
  | acc, c :: rest => parseStringBody (c :: acc) rest
  | _, [] => Option.none

/-- Exponent part of a JSON number after the e/E marker: optional sign, then
at least one digit. -/
def parseExpTail (cs : List Char) : Option (Int × List Char) :=
  let p : Bool × List Char :=
    match cs with
    | '-' :: r => (true, r)
    | '+' :: r => (false, r)
    | _ => (false, cs)
  let d := takeDigits p.2
  if d.1.isEmpty then Option.none
  else
    Option.some
      ((if p.1 then -(digitsVal d.1 0 : Int) else (digitsVal d.1 0 : Int)), d.2)

/-- Assemble a JSON number: an int when there is neither fraction nor
exponent (as json.loads does), a float otherwise. -/
def mkJsonNum (neg : Bool) (ip : Nat) (frac : List Char) (exp : Option Int) :
    PyVal :=
  match frac, exp with
  | [], Option.none => .int (if neg then -(ip : Int) else (ip : Int))
  | _, _ =>
    let mant : Int := ((ip * 10 ^ frac.length + digitsVal frac 0 : Nat) : Int)
    let mant := if neg then -mant else mant
    let e : Int := (exp.getD 0) - (frac.length : Int)
    .float ((mant : ℚ) * (10 : ℚ) ^ e)

/-- JSON number literal: optional minus, digits without a forbidden leading
zero, optional fraction, optional exponent. -/
def parseNumber (cs : List Char) : Option (PyVal × List Char) :=
  let sgn : Bool × List Char :=
    match cs with
    | '-' :: r => (true, r)
    | _ => (false, cs)
  let d := takeDigits sgn.2
  if d.1.isEmpty then Option.none
  else if d.1.length > 1 && d.1.head? == Option.some '0' then Option.none
  else
    let ip := digitsVal d.1 0
    match d.2 with
    | '.' :: r =>
      let f := takeDigits r
      if f.1.isEmpty then Option.none
      else
        match f.2 with
        | 'e' :: r2 =>
          (parseExpTail r2).map (fun p => (mkJsonNum sgn.1 ip f.1 (Option.some p.1), p.2))
        | 'E' :: r2 =>
          (parseExpTail r2).map (fun p => (mkJsonNum sgn.1 ip f.1 (Option.some p.1), p.2))
        | _ => Option.some (mkJsonNum sgn.1 ip f.1 Option.none, f.2)
    | 'e' :: r2 =>
      (parseExpTail r2).map (fun p => (mkJsonNum sgn.1 ip [] (Option.some p.1), p.2))
    | 'E' :: r2 =>
      (parseExpTail r2).map (fun p => (mkJsonNum sgn.1 ip [] (Option.some p.1), p.2))
    | _ => Option.some (mkJsonNum sgn.1 ip [] Option.none, d.2)

mutual
/-- One JSON value, by recursive descent with a fuel bound on the recursion
depth (the top-level entry point supplies ample fuel). -/
def parseValue : Nat → List Char → Option (PyVal × List Char)
  | 0, _ => Option.none
  | Nat.succ fuel, cs =>
    match skipWs cs with
    | 'n' :: 'u' :: 'l' :: 'l' :: rest => Option.some (.none, rest)
    | 't' :: 'r' :: 'u' :: 'e' :: rest => Option.some (.bool true, rest)
    | 'f' :: 'a' :: 'l' :: 's' :: 'e' :: rest => Option.some (.bool false, rest)
    | '"' :: rest => (parseStringBody [] rest).map (fun p => (.str p.1, p.2))
    | '[' :: rest =>
      (match skipWs rest with
       | ']' :: r => Option.some (.list [], r)
       | cs2 => parseElems fuel cs2 [])
    | c :: rest =>
      if c = lbrace then
        match skipWs rest with
        | d :: r2 =>
          if d = rbrace then Option.some (.dict [], r2)
          else parseMembers fuel (d :: r2) []
        | [] => Option.none
      else if c = '-' ∨ c.isDigit then parseNumber (c :: rest)
      else Option.none
    | [] => Option.none

/-- Comma-separated JSON array elements up to the closing bracket. -/
def parseElems : Nat → List Char → List PyVal → Option (PyVal × List Char)
  | 0, _, _ => Option.none
  | Nat.succ fuel, cs, acc =>
    match parseValue fuel cs with
    | Option.none => Option.none
    | Option.some (v, r) =>
      match skipWs r with
      | ',' :: r2 => parseElems fuel r2 (v :: acc)
      | ']' :: r2 => Option.some (.list (v :: acc).reverse, r2)
      | _ => Option.none

/-- Comma-separated JSON object members up to the closing brace; duplicate
keys keep the first position with the last value, as Python dicts do. -/
def parseMembers : Nat → List Char → List (String × PyVal) →
    Option (PyVal × List Char)
  | 0, _, _ => Option.none
  | Nat.succ fuel, cs, acc =>
    match skipWs cs with
    | '"' :: r =>
      (match parseStringBody [] r with
       | Option.none => Option.none
       | Option.some (k, r2) =>
         match skipWs r2 with
         | ':' :: r3 =>
           (match parseValue fuel r3 with
            | Option.none => Option.none
            | Option.some (v, r4) =>
              match skipWs r4 with
              | ',' :: r5 => parseMembers fuel r5 (dictSet acc k v)
              | c :: r5 =>
                if c = rbrace then Option.some (.dict (dictSet acc k v), r5)
                else Option.none
              | [] => Option.none)
         | _ => Option.none)
    | _ => Option.none
end

/-- Model of json.loads applied to a string: parse one JSON value and accept
only whitespace after it.  The model covers objects, arrays, strings with the
single-character escapes, integers, floats with fraction and exponent, and
true/false/null; \uXXXX escapes and the nonstandard NaN/Infinity literals are
outside the model. -/
def json_parse (s : String) : Option PyVal :=
  match parseValue (4 * s.length + 4) s.data with
  | Option.some (v, rest) =>
    if (skipWs rest).isEmpty then Option.some v else Option.none
  | Option.none => Option.none

/-- Failures of json.loads: a JSONDecodeError on an unparsable string, a
TypeError on an argument that is not a string (bytes are outside the
model). -/
inductive LoadErr where
  | decodeError : LoadErr
  | typeError : LoadErr
deriving DecidableEq

/-- Model of json.loads on an arbitrary Python value. -/
def json_loads : PyVal → Except LoadErr PyVal
  | .str s =>
    match json_parse s with
    | Option.some v => Except.ok v
    | Option.none => Except.error LoadErr.decodeError
  | _ => Except.error LoadErr.typeError

/-- Model of v.get(k): defined on dicts (returning None for a missing key),
an AttributeError on every other receiver — ints, strings, lists and the
rest have no .get method. -/
def py_get : PyVal → String → Except PyExc PyVal
  | .dict kvs, k => Except.ok (dictGetD kvs k .none)
  | _, _ => Except.error PyExc.attributeError

/-- Embeds validate_customer_id (callbacks.py lines 84-110).  The source
annotates customer_id as str, but the annotation is unenforced and
before_tool passes args["customer_id"] through unchecked, so the candidate is
modelled as an arbitrary value.  The try block catches exactly
json.JSONDecodeError and KeyError; KeyError is never raised there (dict.get
does not raise), so a TypeError from json.loads on a non-string profile and
an AttributeError from .get on a non-dict parse result both escape.  The
function only reads the session state and returns no updated state: it
cannot mutate it. -/
def validate_customer_id (customer_id : PyVal)
    (session_state : List (String × PyVal)) : Except PyExc (Bool × String) :=
  if !hasKey session_state "customer_profile" then
    Except.ok (false, "No customer profile selected. Please select a profile.")
  else
    match json_loads (dictGetD session_state "customer_profile" .none) with
    | Except.error LoadErr.decodeError =>
      Except.ok (false,
        "Customer profile couldn't be parsed. Please reload the customer data.")
    | Except.error LoadErr.typeError => Except.error PyExc.typeError
    | Except.ok customer_data =>
      match py_get customer_data "customer_id" with
      | Except.error e => Except.error e
      | Except.ok stored_customer_id =>
        if pyEq customer_id stored_customer_id then Except.ok (true, "")
        else
          Except.ok (false,
            "You cannot use the tool with customer_id " ++ pyStr customer_id ++
              ", only for " ++ pyStr stored_customer_id ++ ".")

/-- The fixed auto-approval response of before_tool (callbacks.py 145-148). -/
def approval_response : PyVal :=
  .dict [("status", .str "approved"),
         ("message", .str "You can approve this discount; no manager needed.")]

/-- The fixed cart-modification response of before_tool (callbacks.py 156). -/
def cart_response : PyVal :=
  .dict [("result", .str "I have added and removed the requested items.")]

/-- Embeds the modify_cart rule of before_tool (callbacks.py 151-157): the
short-circuit fires only when the tool is named modify_cart and both
items_added and items_removed are the True singleton. -/
def modify_cart_rule (toolName : String) (args : List (String × PyVal)) :
    Option PyVal :=
  if toolName == "modify_cart"
      && isTrue (dictGetD args "items_added" .none)
      && isTrue (dictGetD args "items_removed" .none) then
    Option.some cart_response
  else
    Option.none

/-- Embeds the tool-name rules of before_tool (callbacks.py 140-157), reached
after customer_id validation passed or was skipped.  For
sync_ask_for_approval the guard reads amount = args.get("value", None) and
tests amount and amount <= 10: a falsy amount (absent, None, 0, 0.0, False,
empty containers) skips the rule by short-circuit, a truthy non-number raises
TypeError at the comparison, and a truthy number at most 10 returns the fixed
approval response.  Control then falls through to the modify_cart rule. -/
def before_tool_rules (toolName : String) (args : List (String × PyVal)) :
    Except PyExc (Option PyVal) :=
  if toolName == "sync_ask_for_approval" then
    let amount := dictGetD args "value" .none
    if py_truthy amount then
      match pyLeInt amount 10 with
      | Except.error e => Except.error e
      | Except.ok true => Except.ok (Option.some approval_response)
      | Except.ok false => Except.ok (modify_cart_rule toolName args)
    else Except.ok (modify_cart_rule toolName args)
  else Except.ok (modify_cart_rule toolName args)

/-- Embeds before_tool (callbacks.py 126-157).  Line 130 calls
lowercase_value(args) and discards its result: lowercase_value is pure (it
rebuilds containers, it never assigns into its argument), so args is left
exactly as the model produced it and every later read — the customer_id
validation and the real tool — observes the original casing.  The embedding
returns the guard's result together with the args mapping as subsequent code
observes it, which is the unchanged input mapping. -/
def before_tool (toolName : String) (args : List (String × PyVal))
    (state : List (String × PyVal)) :
    Except PyExc (Option PyVal × List (String × PyVal)) :=
  let _lowered := lowercase_value (.dict args)
  if hasKey args "customer_id" then
    match validate_customer_id (dictGetD args "customer_id" .none) state with
    | Except.error e => Except.error e
    | Except.ok (valid, err) =>
      if valid = false then Except.ok (Option.some (.str err), args)
      else (before_tool_rules toolName args).map (fun r => (r, args))
  else (before_tool_rules toolName args).map (fun r => (r, args))

/-- The RATE_LIMIT_SECS constant of callbacks.py line 32. -/
def RATE_LIMIT_SECS : ℚ := 60

/-- The RPM_QUOTA constant of callbacks.py line 33. -/
def RPM_QUOTA : ℚ := 10

/-- Embeds the throttle logic of rate_limit_callback (callbacks.py 51-82).
Times are rationals (Python floats carry no rounding relevant to the claims);
now stands for time.time().  The session state is projected to its numeric
entries timer_start and request_count.  The result carries the updated state
and Option.some d exactly when the code calls time.sleep(d); reading a
missing request_count raises KeyError as Python indexing does.  The
llm_request part rewrite of lines 46-49 touches only the request object, not
the session state, and is outside this projection. -/
def rate_limit_callback (now : ℚ) (state : List (String × ℚ)) :
    Except PyExc (List (String × ℚ) × Option ℚ) :=
  if !hasKey state "timer_start" then
    Except.ok (dictSet (dictSet state "timer_start" now) "request_count" 1,
               Option.none)
  else
    match dictGet state "request_count" with
    | Option.none => Except.error PyExc.keyError
    | Option.some rc =>
      let request_count := rc + 1
      match dictGet state "timer_start" with
      | Option.none => Except.error PyExc.keyError
      | Option.some ts =>
        let elapsed_secs := now - ts
        if request_count > RPM_QUOTA then
          let delay := RATE_LIMIT_SECS - elapsed_secs + 1
          let slept := if delay > 0 then Option.some delay else Option.none
          Except.ok
            (dictSet (dictSet state "timer_start" now) "request_count" 1, slept)
        else
          Except.ok (dictSet state "request_count" request_count, Option.none)

/-- Observable fields of the run_config object read by before_agent: the
inputs and extra_kwargs attributes as getattr with default None yields them,
and the outcome of run_config.model_dump(exclude_none=True), which may raise
(the string carries the exception text; before_agent only logs it). -/
structure RunConfig where
  inputs : PyVal
  extra_kwargs : PyVal
  dump : Except String PyVal

/-- Observable fields of the invocation context read by before_agent: the
inputs attribute (getattr default None) and the run_config attribute; the
context's own model_dump is used by the source only for diagnostic logging
inside a try/except and cannot affect the state, so it is not carried. -/
structure InvContext where
  inputs : PyVal
  run_config : Option RunConfig

/-- The callback context as before_agent sees it: the private
_invocation_context attribute (None or absent modelled as Option.none) and
the session state. -/
structure AgentCtx where
  inv : Option InvContext
  state : List (String × PyVal)

/-- Embeds the possible_sources collection of before_agent (callbacks.py
191-206): run_config.inputs and run_config.extra_kwargs when they are dicts,
then the model_dump result when it succeeded and is a dict; a dump failure is
caught and logged. -/
def possible_sources : Option RunConfig → List (List (String × PyVal)) :=
  fun rc =>
    match rc with
    | Option.none => []
    | Option.some r =>
      (match r.inputs with
       | .dict kvs => [kvs]
       | _ => []) ++
      (match r.extra_kwargs with
       | .dict kvs => [kvs]
       | _ => []) ++
      (match r.dump with
       | Except.ok (.dict kvs) => [kvs]
       | _ => [])

/-- Embeds the source scan of before_agent (callbacks.py 208-215): the first
source with a top-level sessionMetadata key, or failing that a dict-valued
inputs entry containing sessionMetadata, wins and stops the scan; the
returned value may itself be None. -/
def scan_sources : List (List (String × PyVal)) → PyVal
  | [] => .none
  | src :: rest =>
    if hasKey src "sessionMetadata" then dictGetD src "sessionMetadata" .none
    else
      match dictGetD src "inputs" .none with
      | .dict inner =>
        if hasKey inner "sessionMetadata" then
          dictGetD inner "sessionMetadata" .none
        else scan_sources rest
      | _ => scan_sources rest

/-- Embeds before_agent (callbacks.py 176-245).  A missing invocation context
returns immediately.  Step 1 reads inv.inputs["sessionMetadata"] when inputs
is a dict; step 2 scans the run_config sources only when step 1 produced
None.  The write into state is guarded by Python truthiness (if
session_meta:), so a falsy result — None, empty dict, empty string — is not
stored and the code falls into the diagnostic-logging branch, whose
model_dump calls sit in try/except and only log, leaving the state
unchanged. -/
def before_agent (ctx : AgentCtx) : AgentCtx :=
  match ctx.inv with
  | Option.none => ctx
  | Option.some inv =>
    let meta1 : PyVal :=
      match inv.inputs with
      | .dict kvs => dictGetD kvs "sessionMetadata" .none
      | _ => .none
    let meta : PyVal :=
      if isNone meta1 then scan_sources (possible_sources inv.run_config)
      else meta1
    if py_truthy meta then
      { ctx with state := dictSet ctx.state "session_metadata" meta }
    else ctx

theorem dictGet_set_self {α : Type} (l : List (String × α)) (k : String)
    (v : α) : dictGet (dictSet l k v) k = Option.some v := by
  induction l with
  | nil => simp [dictSet, dictGet]
  | cons kv rest ih =>
    by_cases h : kv.1 == k
    · simp [dictSet, dictGet, h]
    · simpa [dictSet, dictGet, h] using ih

theorem dictGet_set_other {α : Type} (l : List (String × α)) (k k2 : String)
    (v : α) (h : k ≠ k2) : dictGet (dictSet l k v) k2 = dictGet l k2 := by
  induction l with
  | nil => simp [dictSet, dictGet, h]
  | cons kv rest ih =>
    by_cases hk : kv.1 == k
    · have hk' : kv.1 = k := by simpa using hk
      simp [dictSet, dictGet, hk, hk', h]
    · by_cases hk2 : kv.1 == k2
      · simp [dictSet, dictGet, hk, hk2]
      · simp [dictSet, dictGet, hk, hk2, ih]

theorem dictGet_isSome_of_hasKey {α : Type} {l : List (String × α)}
    {k : String} (h : hasKey l k = true) : (dictGet l k).isSome := by
  induction l with
  | nil => simp [hasKey] at h
  | cons kv rest ih =>
    by_cases hk : kv.1 == k
    · simp [dictGet, hk]
    · simp [hasKey, hk] at h
      simpa [dictGet, hk] using ih h

theorem dictGetD_eq_of_not_hasKey {α : Type} {l : List (String × α)}
    {k : String} (d : α) (h : hasKey l k = false) : dictGetD l k d = d := by
  induction l with
  | nil => simp [dictGetD, dictGet]
  | cons kv rest ih =>
    by_cases hk : kv.1 == k
    · simp [hasKey, hk] at h
    · simp [hasKey, hk] at h
      simpa [dictGetD, dictGet, hk] using ih h

theorem hasKey_of_dictGetD {α : Type} {l : List (String × α)} {k : String}
    {d v : α} (h : dictGetD l k d = v) (hne : v ≠ d) : hasKey l k = true := by
  by_cases hk : hasKey l k
  · exact hk
  · rw [dictGetD_eq_of_not_hasKey d (by simpa using hk)] at h
    exact absurd h.symm hne

/-- C7: on a session state without a timer_start key, the throttle records
timer_start = now and request_count = 1 and does not sleep. -/
theorem rate_limit_first_call (now : ℚ) (st : List (String × ℚ))
    (h : hasKey st "timer_start" = false) :
    rate_limit_callback now st =
      Except.ok (dictSet (dictSet st "timer_start" now) "request_count" 1,
        Option.none) ∧
    dictGet (dictSet (dictSet st "timer_start" now) "request_count" 1)
        "timer_start" = Option.some now ∧
    dictGet (dictSet (dictSet st "timer_start" now) "request_count" 1)
        "request_count" = Option.some 1 := by
  refine ⟨by simp [rate_limit_callback, h], ?_, ?_⟩
  · rw [dictGet_set_other _ _ _ _ (by decide)]
    exact dictGet_set_self _ _ _
  · exact dictGet_set_self _ _ _

/-- Witness for C7: the first call of a fresh session at time 5. -/
theorem rate_limit_first_call_witness :
    rate_limit_callback 5 [] =
      Except.ok ([("timer_start", (5 : ℚ)), ("request_count", (1 : ℚ))],
        Option.none) ∧
    dictGet [("timer_start", (5 : ℚ)), ("request_count", (1 : ℚ))]
        "timer_start" = Option.some 5 ∧
    dictGet [("timer_start", (5 : ℚ)), ("request_count", (1 : ℚ))]
        "request_count" = Option.some 1 := by
  have h := rate_limit_first_call 5 [] rfl
  exact ⟨h.1.trans rfl, rfl, rfl⟩

/-- C8: a subsequent call whose incremented count stays within the quota of
10 persists the incremented count, leaves timer_start unchanged and does not
sleep. -/
theorem rate_limit_under_quota (now : ℚ) (st : List (String × ℚ)) (rc : ℚ)
    (h1 : hasKey st "timer_start" = true)
    (h2 : dictGet st "request_count" = Option.some rc)
    (h3 : rc + 1 ≤ RPM_QUOTA) :
    rate_limit_callback now st =
      Except.ok (dictSet st "request_count" (rc + 1), Option.none) ∧
    dictGet (dictSet st "request_count" (rc + 1)) "timer_start" =
      dictGet st "timer_start" ∧
    dictGet (dictSet st "request_count" (rc + 1)) "request_count" =
      Option.some (rc + 1) := by
  obtain ⟨ts, hts⟩ := Option.isSome_iff_exists.mp (dictGet_isSome_of_hasKey h1)
  refine ⟨?_, ?_, dictGet_set_self _ _ _⟩
  · simp [rate_limit_callback, h1, h2, hts, not_lt.mpr h3]
  · exact dictGet_set_other _ _ _ _ (by decide)

/-- Witness for C8: the second call of a session, two seconds in. -/
theorem rate_limit_under_quota_witness :
    rate_limit_callback 2 [("timer_start", (0 : ℚ)), ("request_count", (1 : ℚ))] =
      Except.ok (dictSet [("timer_start", (0 : ℚ)), ("request_count", (1 : ℚ))]
        "request_count" (1 + 1), Option.none) ∧
    dictGet (dictSet [("timer_start", (0 : ℚ)), ("request_count", (1 : ℚ))]
        "request_count" (1 + 1)) "timer_start" =
      dictGet [("timer_start", (0 : ℚ)), ("request_count", (1 : ℚ))]
        "timer_start" ∧
    dictGet (dictSet [("timer_start", (0 : ℚ)), ("request_count", (1 : ℚ))]
        "request_count" (1 + 1)) "request_count" = Option.some (1 + 1) :=
  rate_limit_under_quota 2 _ 1 rfl rfl (by norm_num [RPM_QUOTA])

/-- C5: a call whose incremented count exceeds the quota computes the delay
RATE_LIMIT_SECS - elapsed + 1 exactly, sleeps that amount exactly when it is
positive, and in every over-quota case resets the window to timer_start = now
and request_count = 1 afterwards. -/
theorem rate_limit_over_quota (now : ℚ) (st : List (String × ℚ)) (rc ts : ℚ)
    (h1 : hasKey st "timer_start" = true)
    (h2 : dictGet st "request_count" = Option.some rc)
    (h3 : dictGet st "timer_start" = Option.some ts)
    (h4 : rc + 1 > RPM_QUOTA) :
    rate_limit_callback now st =
      Except.ok (dictSet (dictSet st "timer_start" now) "request_count" 1,
        if RATE_LIMIT_SECS - (now - ts) + 1 > 0
        then Option.some (RATE_LIMIT_SECS - (now - ts) + 1)
        else Option.none) ∧
    dictGet (dictSet (dictSet st "timer_start" now) "request_count" 1)
        "timer_start" = Option.some now ∧
    dictGet (dictSet (dictSet st "timer_start" now) "request_count" 1)
        "request_count" = Option.some 1 := by
  refine ⟨?_, ?_, dictGet_set_self _ _ _⟩
  · simp [rate_limit_callback, h1, h2, h3, h4]
  · rw [dictGet_set_other _ _ _ _ (by decide)]
    exact dictGet_set_self _ _ _

/-- Witness for C5: the 11th call 30 seconds into the window sleeps 31
seconds and resets; a second instantiation 70 seconds in (negative delay)
does not sleep but still resets. -/
theorem rate_limit_over_quota_witness :
    (rate_limit_callback 30
        [("timer_start", (0 : ℚ)), ("request_count", (10 : ℚ))] =
      Except.ok ([("timer_start", (30 : ℚ)), ("request_count", (1 : ℚ))],
        Option.some 31)) ∧
    (rate_limit_callback 70
        [("timer_start", (0 : ℚ)), ("request_count", (10 : ℚ))] =
      Except.ok ([("timer_start", (70 : ℚ)), ("request_count", (1 : ℚ))],
        Option.none)) := by
  have h1 := (rate_limit_over_quota 30
    [("timer_start", (0 : ℚ)), ("request_count", (10 : ℚ))] 10 0
    rfl rfl rfl (by norm_num [RPM_QUOTA])).1
  have h2 := (rate_limit_over_quota 70
    [("timer_start", (0 : ℚ)), ("request_count", (10 : ℚ))] 10 0
    rfl rfl rfl (by norm_num [RPM_QUOTA])).1
  have e1 : (if RATE_LIMIT_SECS - ((30 : ℚ) - 0) + 1 > 0
      then Option.some (RATE_LIMIT_SECS - ((30 : ℚ) - 0) + 1)
      else Option.none) = Option.some 31 := by
    norm_num [RATE_LIMIT_SECS]
  have e2 : (if RATE_LIMIT_SECS - ((70 : ℚ) - 0) + 1 > 0
      then Option.some (RATE_LIMIT_SECS - ((70 : ℚ) - 0) + 1)
      else Option.none) = (Option.none : Option ℚ) := by
    norm_num [RATE_LIMIT_SECS]
  rw [e1, show (dictSet (dictSet
      [("timer_start", (0 : ℚ)), ("request_count", (10 : ℚ))]
      "timer_start" 30) "request_count" 1) =
      [("timer_start", (30 : ℚ)), ("request_count", (1 : ℚ))] from rfl] at h1
  rw [e2, show (dictSet (dictSet
      [("timer_start", (0 : ℚ)), ("request_count", (10 : ℚ))]
      "timer_start" 70) "request_count" 1) =
      [("timer_start", (70 : ℚ)), ("request_count", (1 : ℚ))] from rfl] at h2
  exact ⟨h1, h2⟩

theorem strAppend_assoc (a b c : String) : a ++ b ++ c = a ++ (b ++ c) := by
  cases a with
  | mk d1 =>
  cases b with
  | mk d2 =>
  cases c with
  | mk d3 =>
  show String.mk (d1 ++ d2 ++ d3) = String.mk (d1 ++ (d2 ++ d3))
  rw [List.append_assoc]

theorem pyEq_str_iff (c : String) (v : PyVal) :
    pyEq (.str c) v = true ↔ v = .str c := by
  cases v with
  | str b =>
    show (c == b) = true ↔ PyVal.str b = PyVal.str c
    constructor
    · intro h
      have hb : c = b := by simpa using h
      rw [hb]
    · intro h
      injection h with hb
      rw [hb]
      simp
  | none => simp [show pyEq (.str c) PyVal.none = false from rfl]
  | bool b => simp [show pyEq (.str c) (PyVal.bool b) = false from rfl]
  | int n => simp [show pyEq (.str c) (PyVal.int n) = false from rfl]
  | float q => simp [show pyEq (.str c) (PyVal.float q) = false from rfl]
  | list xs => simp [show pyEq (.str c) (PyVal.list xs) = false from rfl]
  | set xs => simp [show pyEq (.str c) (PyVal.set xs) = false from rfl]
  | tuple xs => simp [show pyEq (.str c) (PyVal.tuple xs) = false from rfl]
  | dict kvs => simp [show pyEq (.str c) (PyVal.dict kvs) = false from rfl]

/-- C6: validate_customer_id returns (false, the no-profile message) when the
state has no customer_profile key; (false, the parse-failure message) when
the stored profile is a string that is not valid JSON; and when the profile
parses to a JSON object it returns (true, "") exactly when the candidate
string equals the stored customer_id, and otherwise (false, a message naming
the candidate and the stored id).  The function takes the state by value and
returns no state: it cannot mutate the session. -/
theorem validate_customer_id_spec (st : List (String × PyVal)) (c s : String)
    (kvs : List (String × PyVal)) :
    (hasKey st "customer_profile" = false →
      validate_customer_id (.str c) st =
        Except.ok (false,
          "No customer profile selected. Please select a profile.")) ∧
    (dictGetD st "customer_profile" .none = .str s →
      json_parse s = Option.none →
      validate_customer_id (.str c) st =
        Except.ok (false,
          "Customer profile couldn't be parsed. Please reload the customer data.")) ∧
    (dictGetD st "customer_profile" .none = .str s →
      json_parse s = Option.some (.dict kvs) →
      (validate_customer_id (.str c) st = Except.ok (true, "") ↔
        dictGetD kvs "customer_id" .none = .str c)) ∧
    (dictGetD st "customer_profile" .none = .str s →
      json_parse s = Option.some (.dict kvs) →
      dictGetD kvs "customer_id" .none ≠ .str c →
      validate_customer_id (.str c) st =
        Except.ok (false,
          "You cannot use the tool with customer_id " ++ c ++
            ", only for " ++ pyStr (dictGetD kvs "customer_id" .none) ++ ".")) := by
  refine ⟨fun h => by simp [validate_customer_id, h], fun h hp => ?_,
    fun h hp => ?_, fun h hp hne => ?_⟩
  · have hk := hasKey_of_dictGetD h (by simp)
    simp [validate_customer_id, hk, h, json_loads, hp]
  · have hk := hasKey_of_dictGetD h (by simp)
    by_cases hg : dictGetD kvs "customer_id" .none = .str c
    · have hcc : pyEq (.str c) (.str c) = true :=
        (pyEq_str_iff c (.str c)).mpr rfl
      simp [validate_customer_id, hk, h, json_loads, hp, py_get, hg, hcc,
        (pyEq_str_iff c _).mpr hg]
    · have hq : pyEq (.str c) (dictGetD kvs "customer_id" .none) = false := by
        rcases hb : pyEq (.str c) (dictGetD kvs "customer_id" .none) with _ | _
        · rfl
        · exact absurd ((pyEq_str_iff c _).mp hb) hg
      simp [validate_customer_id, hk, h, json_loads, hp, py_get, hg, hq]
  · have hk := hasKey_of_dictGetD h (by simp)
    have hq : pyEq (.str c) (dictGetD kvs "customer_id" .none) = false := by
      rcases hb : pyEq (.str c) (dictGetD kvs "customer_id" .none) with _ | _
      · rfl
      · exact absurd ((pyEq_str_iff c _).mp hb) hne
    simp [validate_customer_id, hk, h, json_loads, hp, py_get, hq, pyStr]

/-- Witness for C6: profile with customer_id "42" accepts "42" and rejects
"7" with the message naming 42; an empty state and an unparsable profile
give the two remediation messages. -/
theorem validate_customer_id_spec_witness :
    validate_customer_id (.str "42")
        [("customer_profile", .str "\x7b\"customer_id\": \"42\"\x7d")] =
      Except.ok (true, "") ∧
    validate_customer_id (.str "7")
        [("customer_profile", .str "\x7b\"customer_id\": \"42\"\x7d")] =
      Except.ok (false,
        "You cannot use the tool with customer_id 7, only for 42.") ∧
    validate_customer_id (.str "42") [] =
      Except.ok (false,
        "No customer profile selected. Please select a profile.") ∧
    validate_customer_id (.str "42") [("customer_profile", .str "not json")] =
      Except.ok (false,
        "Customer profile couldn't be parsed. Please reload the customer data.") := by
  refine ⟨?_, ?_, ?_, ?_⟩
  · exact ((validate_customer_id_spec
      [("customer_profile", .str "\x7b\"customer_id\": \"42\"\x7d")]
      "42" "\x7b\"customer_id\": \"42\"\x7d"
      [("customer_id", .str "42")]).2.2.1 rfl rfl).mpr rfl
  · refine (((validate_customer_id_spec
      [("customer_profile", .str "\x7b\"customer_id\": \"42\"\x7d")]
      "7" "\x7b\"customer_id\": \"42\"\x7d"
      [("customer_id", .str "42")]).2.2.2 rfl rfl ?_)).trans rfl
    intro hh
    rw [show dictGetD [("customer_id", PyVal.str "42")] "customer_id"
        PyVal.none = PyVal.str "42" from rfl] at hh
    injection hh with h2
    exact absurd h2 (by decide)
  · exact (validate_customer_id_spec [] "42" "" []).1 rfl
  · exact (validate_customer_id_spec
      [("customer_profile", .str "not json")] "42" "not json" []).2.1 rfl rfl

/-- C10: a profile that parses to a JSON object without a customer_id key
takes the mismatch branch, not the parse-failure branch: .get returns None,
which the candidate string never equals, and the message interpolates the
stored id as None. -/
theorem validate_customer_id_no_stored_id (st : List (String × PyVal))
    (c s : String) (kvs : List (String × PyVal))
    (h : dictGetD st "customer_profile" .none = .str s)
    (hp : json_parse s = Option.some (.dict kvs))
    (hnk : hasKey kvs "customer_id" = false) :
    validate_customer_id (.str c) st =
      Except.ok (false,
        "You cannot use the tool with customer_id " ++ c ++
          ", only for None.") := by
  have hk := hasKey_of_dictGetD h (by simp)
  have hg : dictGetD kvs "customer_id" .none = PyVal.none :=
    dictGetD_eq_of_not_hasKey _ hnk
  simp only [validate_customer_id, hk, h, json_loads, hp, py_get, hg,
    show pyEq (.str c) PyVal.none = false from rfl, Bool.not_true,
    Bool.false_eq_true, if_false, if_true]
  rw [show pyStr PyVal.none = "None" from rfl,
    show pyStr (PyVal.str c) = c from rfl, strAppend_assoc, strAppend_assoc]
  exact rfl

/-- Witness for C10: a parsed profile holding only a name field rejects
candidate "42" with the stored id rendered as None. -/
theorem validate_customer_id_no_stored_id_witness :
    validate_customer_id (.str "42")
        [("customer_profile", .str "\x7b\"name\": \"x\"\x7d")] =
      Except.ok (false,
        "You cannot use the tool with customer_id 42, only for None.") :=
  (validate_customer_id_no_stored_id
    [("customer_profile", .str "\x7b\"name\": \"x\"\x7d")]
    "42" "\x7b\"name\": \"x\"\x7d" [("name", .str "x")] rfl rfl rfl).trans rfl

/-- Boolean observation that validate_customer_id returned a (bool, string)
pair rather than raising. -/
def returnsPair : Except PyExc (Bool × String) → Bool
  | Except.ok _ => true
  | Except.error _ => false

/-- C2 counterexample: on a customer_profile that is valid JSON but not an
object ("[1]" parses to a list), customer_data.get raises AttributeError,
which the except clause — it catches only json.JSONDecodeError and
KeyError — lets escape, so validate_customer_id does not return a pair. -/
theorem validate_customer_id_raises :
    validate_customer_id (.str "42") [("customer_profile", .str "[1]")] =
      Except.error PyExc.attributeError ∧
    returnsPair (validate_customer_id (.str "42")
      [("customer_profile", .str "[1]")]) = false := ⟨rfl, rfl⟩

/-- C2 as amended: for every candidate value, validate_customer_id returns a
(bool, string) pair and raises nothing whenever the session has no
customer_profile, or the stored profile is a string that fails to parse as
JSON, or is a string that parses to a JSON object.  (A non-string profile
raises TypeError in json.loads; a profile parsing to a non-object raises
AttributeError at .get; both escape.) -/
theorem validate_customer_id_total_on_wellformed (cand : PyVal)
    (st : List (String × PyVal)) (s : String) (kvs : List (String × PyVal)) :
    (hasKey st "customer_profile" = false →
      returnsPair (validate_customer_id cand st) = true) ∧
    (dictGetD st "customer_profile" .none = .str s →
      json_parse s = Option.none →
      returnsPair (validate_customer_id cand st) = true) ∧
    (dictGetD st "customer_profile" .none = .str s →
      json_parse s = Option.some (.dict kvs) →
      returnsPair (validate_customer_id cand st) = true) := by
  refine ⟨fun h => by simp [validate_customer_id, h, returnsPair],
    fun h hp => ?_, fun h hp => ?_⟩
  · have hk := hasKey_of_dictGetD h (by simp)
    simp [validate_customer_id, hk, h, json_loads, hp, returnsPair]
  · have hk := hasKey_of_dictGetD h (by simp)
    cases hq : pyEq cand (dictGetD kvs "customer_id" .none) <;>
      simp [validate_customer_id, hk, h, json_loads, hp, py_get, hq,
        returnsPair]

/-- Witness for C2 as amended: the three safe shapes at concrete states. -/
theorem validate_customer_id_total_witness :
    returnsPair (validate_customer_id (.str "42") []) = true ∧
    returnsPair (validate_customer_id (.str "42")
      [("customer_profile", .str "not json")]) = true ∧
    returnsPair (validate_customer_id (.str "42")
      [("customer_profile", .str "\x7b\"customer_id\": \"42\"\x7d")]) = true := by
  refine ⟨?_, ?_, ?_⟩
  · exact (validate_customer_id_total_on_wellformed (.str "42") [] "" []).1 rfl
  · exact (validate_customer_id_total_on_wellformed (.str "42")
      [("customer_profile", .str "not json")] "not json" []).2.1 rfl rfl
  · exact (validate_customer_id_total_on_wellformed (.str "42")
      [("customer_profile", .str "\x7b\"customer_id\": \"42\"\x7d")]
      "\x7b\"customer_id\": \"42\"\x7d"
      [("customer_id", .str "42")]).2.2 rfl rfl

mutual
/-- Relation between an input value and its case-normalized form, written
from the specification of lowercasing: dictionary keys unchanged and entries
related pointwise, every string value replaced by its lowercased form, every
list/set/tuple rebuilt with its own constructor around related elements, and
every non-string, non-container value unchanged. -/
def loweredOf : PyVal → PyVal → Bool
  | .str a, .str b => b == strLower a
  | .none, .none => true
  | .bool a, .bool b => a == b
  | .int a, .int b => a == b
  | .float a, .float b => decide (a = b)
  | .list a, .list b => loweredOfList a b
  | .tuple a, .tuple b => loweredOfList a b
  | .set a, .set b => loweredOfList a b
  | .dict a, .dict b => loweredOfKVs a b
  | _, _ => false

/-- Pointwise loweredOf on container elements. -/
def loweredOfList : List PyVal → List PyVal → Bool
  | [], [] => true
  | x :: xs, y :: ys => loweredOf x y && loweredOfList xs ys
  | _, _ => false

/-- Entrywise loweredOf on dict items: keys equal, values related. -/
def loweredOfKVs : List (String × PyVal) → List (String × PyVal) → Bool
  | [], [] => true
  | a :: xs, b :: ys => a.1 == b.1 && loweredOf a.2 b.2 && loweredOfKVs xs ys
  | _, _ => false
end

mutual
theorem lowercase_value_loweredOf :
    ∀ v : PyVal, loweredOf v (lowercase_value v) = true
  | .none => rfl
  | .bool b => by
      show (b == b) = true
      simp
  | .int n => by
      show (n == n) = true
      simp
  | .float q => by
      show decide (q = q) = true
      simp
  | .str s => by
      show (strLower s == strLower s) = true
      simp
  | .list xs => by
      show loweredOfList xs (lowercase_list xs) = true
      exact lowercase_list_loweredOf xs
  | .set xs => by
      show loweredOfList xs (lowercase_list xs) = true
      exact lowercase_list_loweredOf xs
  | .tuple xs => by
      show loweredOfList xs (lowercase_list xs) = true
      exact lowercase_list_loweredOf xs
  | .dict kvs => by
      show loweredOfKVs kvs (lowercase_kvs kvs) = true
      exact lowercase_kvs_loweredOf kvs

theorem lowercase_list_loweredOf :
    ∀ xs : List PyVal, loweredOfList xs (lowercase_list xs) = true
  | [] => rfl
  | x :: xs => by
      show (loweredOf x (lowercase_value x) &&
        loweredOfList xs (lowercase_list xs)) = true
      rw [lowercase_value_loweredOf x, lowercase_list_loweredOf xs]
      rfl

theorem lowercase_kvs_loweredOf :
    ∀ kvs : List (String × PyVal), loweredOfKVs kvs (lowercase_kvs kvs) = true
  | [] => rfl
  | kv :: rest => by
      show (kv.1 == kv.1 && loweredOf kv.2 (lowercase_value kv.2) &&
        loweredOfKVs rest (lowercase_kvs rest)) = true
      rw [lowercase_value_loweredOf kv.2, lowercase_kvs_loweredOf rest]
      simp
end

/-- C9: for every input, lowercase_value returns a structure whose dictionary
keys are unchanged, whose string values at every nesting depth are replaced
by their lowercase forms, whose lists, sets and tuples are rebuilt with their
own container type around recursively processed elements, and whose
non-string, non-container values are unchanged. -/
theorem lowercase_value_spec (v : PyVal) :
    loweredOf v (lowercase_value v) = true :=
  lowercase_value_loweredOf v

/-- C1 (code bug): before_tool line 130 computes lowercase_value(args) but
discards the returned copy — lowercase_value is pure and never assigns into
args — so the args mapping that the validation, the business rules and the
real tool observe still holds the original mixed-case string, even though
the discarded lowercased copy differs from it. -/
theorem before_tool_args_not_lowercased :
    before_tool "modify_cart" [("name", .str "JohnDoe")] [] =
      Except.ok (Option.none, [("name", .str "JohnDoe")]) ∧
    lowercase_value (.dict [("name", .str "JohnDoe")]) =
      .dict [("name", .str "johndoe")] ∧
    PyVal.str "JohnDoe" ≠ PyVal.str "johndoe" := by
  refine ⟨rfl, rfl, ?_⟩
  intro h
  injection h with h2
  exact absurd h2 (by decide)

/-- C4 counterexample: with value = 0 — present and at most 10 — the guard
returns None rather than the approval dictionary, because 0 is falsy and the
code tests amount and amount <= 10. -/
theorem before_tool_value_zero :
    before_tool "sync_ask_for_approval" [("value", .int 0)] [] =
      Except.ok (Option.none, [("value", PyVal.int 0)]) ∧
    (Except.ok ((Option.none : Option PyVal), [("value", PyVal.int 0)]) :
        Except PyExc (Option PyVal × List (String × PyVal))) ≠
      Except.ok (Option.some approval_response, [("value", PyVal.int 0)]) := by
  refine ⟨rfl, ?_⟩
  intro h
  injection h with h2
  injection h2 with h3 h4
  exact Option.noConfusion h3

/-- C4 as amended: for an args mapping without a customer_id entry, the
sync_ask_for_approval guard returns the fixed approval dictionary when value
is present as a nonzero integer at most 10; it returns None when value
exceeds 10 (in particular 11) and when value is absent.  (A zero value is
falsy and falls through, and a failing customer_id validation would take
precedence — hence the two restrictions.) -/
theorem before_tool_approval_rule (args st : List (String × PyVal)) (v : Int)
    (hnc : hasKey args "customer_id" = false) :
    (dictGetD args "value" .none = .int v → v ≠ 0 → v ≤ 10 →
      before_tool "sync_ask_for_approval" args st =
        Except.ok (Option.some approval_response, args)) ∧
    (dictGetD args "value" .none = .int v → v > 10 →
      before_tool "sync_ask_for_approval" args st =
        Except.ok (Option.none, args)) ∧
    (hasKey args "value" = false →
      before_tool "sync_ask_for_approval" args st =
        Except.ok (Option.none, args)) := by
  have hmc : modify_cart_rule "sync_ask_for_approval" args = Option.none := rfl
  refine ⟨fun hv hv0 hle => ?_, fun hv hgt => ?_, fun hnv => ?_⟩
  · have ht : py_truthy (PyVal.int v) = true := by simp [py_truthy, hv0]
    have hd : pyLeInt (PyVal.int v) 10 = Except.ok true := by
      simp only [pyLeInt, pyNum?]
      norm_num
      exact_mod_cast hle
    simp [before_tool, before_tool_rules, hnc, hv, ht, hd, Except.map]
  · have ht : py_truthy (PyVal.int v) = true := by
      simp [py_truthy]
      omega
    have hd : pyLeInt (PyVal.int v) 10 = Except.ok false := by
      simp only [pyLeInt, pyNum?]
      norm_num
      exact_mod_cast hgt
    simp [before_tool, before_tool_rules, hnc, hv, ht, hd, hmc, Except.map]
  · have hv : dictGetD args "value" PyVal.none = PyVal.none :=
      dictGetD_eq_of_not_hasKey _ hnv
    simp [before_tool, before_tool_rules, hnc, hv, py_truthy, hmc, Except.map]

/-- Witness for C4 as amended: value 10 is auto-approved, value 11 and a
missing value fall through. -/
theorem before_tool_approval_rule_witness :
    before_tool "sync_ask_for_approval" [("value", .int 10)] [] =
      Except.ok (Option.some approval_response, [("value", PyVal.int 10)]) ∧
    before_tool "sync_ask_for_approval" [("value", .int 11)] [] =
      Except.ok (Option.none, [("value", PyVal.int 11)]) ∧
    before_tool "sync_ask_for_approval" [] [] =
      Except.ok (Option.none, []) := by
  refine ⟨?_, ?_, ?_⟩
  · exact (before_tool_approval_rule [("value", .int 10)] [] 10 rfl).1
      rfl (by decide) (by decide)
  · exact (before_tool_approval_rule [("value", .int 11)] [] 11 rfl).2.1
      rfl (by decide)
  · exact (before_tool_approval_rule [] [] 0 rfl).2.2 rfl

/-- C3 counterexample: inputs carries a sessionMetadata key whose value is
the empty dict — falsy — and before_agent does not copy it: the state stays
empty and holds no session_metadata key. -/
theorem before_agent_falsy_not_copied :
    (before_agent ⟨Option.some ⟨.dict [("sessionMetadata", .dict [])],
      Option.none⟩, []⟩).state = [] ∧
    hasKey [("sessionMetadata", (PyVal.dict [] : PyVal))] "sessionMetadata" =
      true ∧
    hasKey (before_agent ⟨Option.some ⟨.dict [("sessionMetadata", .dict [])],
      Option.none⟩, []⟩).state "session_metadata" = false :=
  ⟨rfl, rfl, rfl⟩

/-- Check (from the code's lookup paths) that one scanned source offers no
sessionMetadata: neither top level nor under a dict-valued inputs entry. -/
def source_lacks_meta (src : List (String × PyVal)) : Bool :=
  !hasKey src "sessionMetadata" &&
    (match dictGetD src "inputs" .none with
     | .dict inner => !hasKey inner "sessionMetadata"
     | _ => true)

/-- sessionMetadata is absent from every lookup location of before_agent:
not in a dict-valued inv.inputs, and in none of the run_config sources. -/
def meta_absent (inv : InvContext) : Bool :=
  (match inv.inputs with
   | .dict kvs => !hasKey kvs "sessionMetadata"
   | _ => true) &&
  (possible_sources inv.run_config).all source_lacks_meta

theorem scan_sources_none :
    ∀ srcs : List (List (String × PyVal)),
      srcs.all source_lacks_meta = true → scan_sources srcs = PyVal.none
  | [], _ => rfl
  | src :: rest, h => by
    rw [List.all_cons, Bool.and_eq_true] at h
    obtain ⟨h1, h2⟩ := h
    rw [source_lacks_meta, Bool.and_eq_true] at h1
    obtain ⟨ha, hb⟩ := h1
    have ha' : hasKey src "sessionMetadata" = false := by simpa using ha
    cases hd : dictGetD src "inputs" PyVal.none with
    | dict inner =>
      rw [hd] at hb
      have hb' : hasKey inner "sessionMetadata" = false := by simpa using hb
      simp [scan_sources, ha', hd, hb']
      exact scan_sources_none rest h2
    | none => simp [scan_sources, ha', hd]; exact scan_sources_none rest h2
    | bool b => simp [scan_sources, ha', hd]; exact scan_sources_none rest h2
    | int n => simp [scan_sources, ha', hd]; exact scan_sources_none rest h2
    | float q => simp [scan_sources, ha', hd]; exact scan_sources_none rest h2
    | str s => simp [scan_sources, ha', hd]; exact scan_sources_none rest h2
    | list xs => simp [scan_sources, ha', hd]; exact scan_sources_none rest h2
    | set xs => simp [scan_sources, ha', hd]; exact scan_sources_none rest h2
    | tuple xs => simp [scan_sources, ha', hd]; exact scan_sources_none rest h2

/-- C3 as amended: when the direct inputs mapping holds sessionMetadata with
a truthy value, before_agent copies that value verbatim into state under
session_metadata; when sessionMetadata is absent from every lookup location,
or the invocation context is missing, the state is left unchanged — the
fallback branch only logs, and a model_dump failure is caught, so nothing
escapes.  (A falsy value, such as an empty dict, is not copied: the write is
guarded by Python truthiness; this is what the counterexample forces.) -/
theorem before_agent_metadata (ctx : AgentCtx) (inv : InvContext)
    (kvs : List (String × PyVal)) (v : PyVal) :
    (ctx.inv = Option.some inv → inv.inputs = .dict kvs →
      dictGetD kvs "sessionMetadata" .none = v → py_truthy v = true →
      (before_agent ctx).state = dictSet ctx.state "session_metadata" v) ∧
    (ctx.inv = Option.some inv → meta_absent inv = true →
      before_agent ctx = ctx) ∧
    (ctx.inv = Option.none → before_agent ctx = ctx) := by
  refine ⟨fun hinv hik hv htr => ?_, fun hinv habs => ?_,
    fun hinv => by simp [before_agent, hinv]⟩
  · have hnn : isNone v = false := by
      cases v <;> simp_all [py_truthy, isNone]
    simp [before_agent, hinv, hik, hv, hnn, htr]
  · rw [meta_absent, Bool.and_eq_true] at habs
    obtain ⟨h1, h2⟩ := habs
    have hscan : scan_sources (possible_sources inv.run_config) = PyVal.none :=
      scan_sources_none _ h2
    cases hik : inv.inputs with
    | dict kvs2 =>
      rw [hik] at h1
      have h1' : hasKey kvs2 "sessionMetadata" = false := by simpa using h1
      have hget : dictGetD kvs2 "sessionMetadata" PyVal.none = PyVal.none :=
        dictGetD_eq_of_not_hasKey _ h1'
      simp [before_agent, hinv, hik, hget, isNone, hscan, py_truthy]
    | none => simp [before_agent, hinv, hik, isNone, hscan, py_truthy]
    | bool b => simp [before_agent, hinv, hik, isNone, hscan, py_truthy]
    | int n => simp [before_agent, hinv, hik, isNone, hscan, py_truthy]
    | float q => simp [before_agent, hinv, hik, isNone, hscan, py_truthy]
    | str s => simp [before_agent, hinv, hik, isNone, hscan, py_truthy]
    | list xs => simp [before_agent, hinv, hik, isNone, hscan, py_truthy]
    | set xs => simp [before_agent, hinv, hik, isNone, hscan, py_truthy]
    | tuple xs => simp [before_agent, hinv, hik, isNone, hscan, py_truthy]

/-- Witness for C3 as amended: a truthy sessionMetadata in inputs is stored;
a context with no sessionMetadata anywhere, and a missing context, leave the
state untouched. -/
theorem before_agent_metadata_witness :
    (before_agent ⟨Option.some ⟨.dict [("sessionMetadata", .str "m")],
        Option.none⟩, []⟩).state = [("session_metadata", PyVal.str "m")] ∧
    before_agent ⟨Option.some ⟨PyVal.none, Option.some
        ⟨PyVal.none, PyVal.none, Except.ok PyVal.none⟩⟩,
        [("x", PyVal.int 1)]⟩ =
      ⟨Option.some ⟨PyVal.none, Option.some
        ⟨PyVal.none, PyVal.none, Except.ok PyVal.none⟩⟩,
        [("x", PyVal.int 1)]⟩ ∧
    before_agent ⟨Option.none, []⟩ = ⟨Option.none, []⟩ := by
  refine ⟨?_, ?_, ?_⟩
  · exact ((before_agent_metadata _
      ⟨.dict [("sessionMetadata", .str "m")], Option.none⟩
      [("sessionMetadata", .str "m")] (.str "m")).1 rfl rfl rfl rfl).trans rfl
  · exact (before_agent_metadata _
      ⟨PyVal.none, Option.some ⟨PyVal.none, PyVal.none, Except.ok PyVal.none⟩⟩
      [] PyVal.none).2.1 rfl rfl
  · exact (before_agent_metadata ⟨Option.none, []⟩ ⟨PyVal.none, Option.none⟩
      [] PyVal.none).2.2 rfl
